import Mathlib

/-!
Shallow embedding of the synchronization core of the deviantart-scripts
repository (deviantart-notes-downloader.py, deviantart-deviations-downloader.py,
devart.py), together with proofs about the frontier sync, membership
reconciliation, audit pass and folder bookkeeping.

The SQLite tables are modelled as Lean lists of rows; SQL statements become
list operations that mirror the statements' semantics row by row.  The remote
service is modelled as explicit inputs (pages of notes, id sets, a detail
fetch function), matching the capabilities the scripts consume.
-/

namespace DAScripts

/-- A row of `tbl_note` from deviantart-notes-downloader.py `prepare_database`:
`id integer primary key, title text, sender text, timestamp integer, text text`.
The timestamp is carried opaquely (the modelled code never computes with it). -/
structure NoteRow where
  id : Nat
  title : String
  sender : String
  timestamp : Nat
  text : String
deriving DecidableEq, Repr

/-- A row of `tbl_folder` from deviantart-notes-downloader.py:
`id text primary key, title text`.  Folder ids are text ("Folder IDs are
actually text..." per the schema comment), so symbolic ids such as "unread"
and numeric ids such as "1" are both plain strings. -/
structure FolderRow where
  id : String
  title : String
deriving DecidableEq, Repr

/-- The notes database: `tbl_note`, `tbl_folder` and the mapping table
`tbl_note_folders`.  A mapping row is `(fk_note_id, fk_folder_id)`; the
source schema gives `tbl_note_folders` its own surrogate integer primary key
and only a NON-unique index on `(fk_note_id, fk_folder_id)`, so duplicate
mapping rows are representable - hence a list, not a set. -/
structure NotesDB where
  notes : List NoteRow
  folders : List FolderRow
  noteFolders : List (Nat × String)
deriving DecidableEq, Repr

/-- The in-memory devart.Note object as consumed by the notes downloader:
integer ID (devart.Note coerces string ids to int), metadata, and the single
folder id the note view was fetched from. -/
structure Note where
  ID : Nat
  title : String
  sender : String
  ts : Nat
  text : String
  folder_ID : String
deriving DecidableEq, Repr

/-- The in-memory devart.NoteFolder object: `ID` is text ("ID is actually
text, can be actual strings like 'unread'"), plus the remote-reported
`site_note_count`. -/
structure NoteFolder where
  id : String
  title : String
  site_note_count : Nat
deriving DecidableEq, Repr

/-- The attribute names a devart.Note instance defines: exactly the fields
its `__init__` assigns (the class adds no other attributes and no
`__getattr__`). -/
def noteAttributeNames : List String :=
  ["ID", "title", "sender", "recipient", "ts", "text", "folder_ID"]

/-- The exception Python raises when `record_note` evaluates `note.who`. -/
def noteWhoAttributeError : String :=
  "AttributeError: 'Note' object has no attribute 'who'"

/-- A fallible block of the notes script run against the database: either it
finishes with the new state, or it raises - carrying the exception message
and the state already committed when the exception was raised (sqlite
commits that already ran are durable; the uncaught exception then kills the
process). -/
abbrev NotesRun := Except (String × NotesDB) NotesDB

/-- `record_note` (deviantart-notes-downloader.py): the source first builds
the parameter dict for the `tbl_note` insert, whose `'sender'` entry reads
`note.who` - an attribute devart.Note does not define (it has `sender`) -
so the lookup raises AttributeError before any SQL statement executes and
the database is untouched.  The dead success branch renders the two inserts
the statements encode (`insert or ignore` into `tbl_note` on the primary
key, then a plain insert of the mapping row - the notes schema has no
unique constraint on the pair), with the note's sender field standing in
for the unresolvable `note.who`. -/
def record_note (db : NotesDB) (note : Note) : NotesRun :=
  if noteAttributeNames.contains "who" then
    .ok { db with
      notes :=
        if db.notes.any (fun n => n.id == note.ID) then db.notes
        else db.notes ++ [⟨note.ID, note.title, note.sender, note.ts, note.text⟩],
      noteFolders := db.noteFolders ++ [(note.ID, note.folder_ID)] }
  else
    .error (noteWhoAttributeError, db)

/-- `record_note_folder` (deviantart-notes-downloader.py): look up the stored
title for the folder id; insert the folder row when absent; otherwise, when
the stored title differs from the remote title, update the title in place
(the SQL `update ... set title ... where id = :id` touches only the title
column of rows with that id). -/
def record_note_folder (db : NotesDB) (nf : NoteFolder) : NotesDB :=
  match db.folders.find? (fun r => r.id == nf.id) with
  | none => { db with folders := db.folders ++ [⟨nf.id, nf.title⟩] }
  | some r =>
    if r.title ≠ nf.title then
      { db with folders :=
          db.folders.map (fun q => if q.id == nf.id then ⟨q.id, nf.title⟩ else q) }
    else db

/-- `delete_note_folder_ID` (deviantart-notes-downloader.py): delete the
folder's mapping rows, then the folder row itself. -/
def delete_note_folder_ID (db : NotesDB) (folderID : String) : NotesDB :=
  { db with noteFolders := db.noteFolders.filter (fun m => !(m.2 == folderID)),
            folders := db.folders.filter (fun r => !(r.id == folderID)) }

/-- `delete_note_IDs` (deviantart-notes-downloader.py): delete the mapping
rows for the given note ids in the given folder, then delete every note row
whose id is in the list and is no longer referenced by any remaining mapping
row (the SQL subquery's extra `fk_note_id in (...)` clause is subsumed by the
outer `id in (...)` condition). -/
def delete_note_IDs (db : NotesDB) (noteIDs : List Nat) (folderID : String) :
    NotesDB :=
  let nf1 := db.noteFolders.filter
    (fun m => !(noteIDs.contains m.1 && m.2 == folderID))
  let notes1 := db.notes.filter
    (fun n => !(noteIDs.contains n.id && !(nf1.any (fun m => m.1 == n.id))))
  { db with notes := notes1, noteFolders := nf1 }

/-- `get_note_ids_in_folder` (deviantart-notes-downloader.py): the join
`tbl_note inner join tbl_note_folders` restricted to one folder - a note id
is returned when a mapping row for the folder exists AND a note row with
that id exists.  The source collapses the result into a Python set; we keep
the raw join list and reason up to membership. -/
def get_note_ids_in_folder (db : NotesDB) (folderID : String) : List Nat :=
  (db.noteFolders.filter (fun m => m.2 == folderID)).filterMap
    (fun m => if db.notes.any (fun n => n.id == m.1) then some m.1 else none)

/-- `get_last_note_id` (deviantart-notes-downloader.py): `order by n.id desc
limit 1` over the same join, i.e. the maximum joined note id, with 0 when the
folder has no recorded notes. -/
def get_last_note_id (db : NotesDB) (folderID : String) : Nat :=
  (get_note_ids_in_folder db folderID).foldr max 0

/-- `get_note_folder_notes_count` (deviantart-notes-downloader.py):
`count(1)` over the join, counting mapping rows whose note row exists. -/
def get_note_folder_notes_count (db : NotesDB) (folderID : String) : Nat :=
  ((db.noteFolders.filter (fun m => m.2 == folderID)).filter
    (fun m => db.notes.any (fun n => n.id == m.1))).length

/-- The inner `for note in notes:` loop of the notes downloader main block:
walk one page's notes (newest first); at the first note with
`ID <= last_note_ID` set the detected flag and break; otherwise call
`record_note` - whose exception aborts the whole loop, leaving the state
committed so far. -/
def record_new_notes_in_page (last_note_ID : Nat) (db : NotesDB) :
    List Note → Except (String × NotesDB) (NotesDB × Bool)
  | [] => .ok (db, false)
  | n :: t =>
    if n.ID ≤ last_note_ID then .ok (db, true)
    else
      match record_note db n with
      | .ok db' => record_new_notes_in_page last_note_ID db' t
      | .error e => .error e

/-- The per-folder `while True:` fetch loop of the notes downloader main
block: process the page at the current offset, then stop when the known
frontier note was detected or the page had fewer than 25 notes, else fetch
the next page.  The remote is modelled as the list of pages served at
offsets 0, 25, 50, ...; offsets past the end serve the empty page. -/
def frontier_page_loop (last_note_ID : Nat) (db : NotesDB) :
    List (List Note) → NotesRun
  | [] => .ok db
  | page :: rest =>
    match record_new_notes_in_page last_note_ID db page with
    | .error e => .error e
    | .ok (db', detected) =>
      if detected || page.length < 25 then .ok db'
      else frontier_page_loop last_note_ID db' rest

/-- One folder's pass of the notes downloader main loop: record the folder
(creating it or applying a rename), read the frontier, then run the page
loop. -/
def frontier_sync_folder (db : NotesDB) (nf : NoteFolder)
    (pages : List (List Note)) : NotesRun :=
  let db1 := record_note_folder db nf
  let last := get_last_note_id db1 nf.id
  frontier_page_loop last db1 pages

/-- The database state a fallible block leaves behind: its result state on
normal completion, or the state already committed when it raised. -/
def result_state : NotesRun → NotesDB
  | .ok db => db
  | .error (_, db) => db

/-- The payload of `get_note_in_folder` (devart.py) apart from the identity
fields: title, sender, timestamp and text parsed from the note HTML. -/
structure NoteDetail where
  title : String
  sender : String
  ts : Nat
  text : String
deriving DecidableEq, Repr

/-- `get_note_in_folder` (devart.py) constructs
`Note(note_ID, ..., folder_ID)`: the returned note carries exactly the
requested note id and folder id, with the remaining fields parsed from the
response (modelled by the `detail` function). -/
def note_from_detail (noteID : Nat) (folderID : String) (d : NoteDetail) :
    Note :=
  ⟨noteID, d.title, d.sender, d.ts, d.text, folderID⟩

/-- The `for note_ID in note_ids_to_fetch:` loop of the audit block: fetch
each note's detail and `record_note` it; the first exception aborts the
loop with the state committed so far. -/
def fetch_and_record (folderID : String) (detail : Nat → NoteDetail)
    (db : NotesDB) : List Nat → NotesRun
  | [] => .ok db
  | i :: t =>
    match record_note db (note_from_detail i folderID (detail i)) with
    | .ok db' => fetch_and_record folderID detail db' t
    | .error e => .error e

/-- The audit body of the notes downloader main block (run for a folder when
fsck is forced or the remote count disagrees with the local count): fetch the
complete remote id set and the local id set, delete `local - remote` via
`delete_note_IDs` (guarded on non-emptiness, as in the source), then fetch
and record each id in `remote - local`.  Modelling the remote as a fixed id
list and a total detail function captures the claim's side conditions that
the remote set does not change mid-pass and no remote fetch fails; whether
recording the fetched note succeeds is decided by `record_note` itself. -/
def audit_note_folder (db : NotesDB) (folderID : String)
    (remoteIDs : List Nat) (detail : Nat → NoteDetail) : NotesRun :=
  let localIDs := get_note_ids_in_folder db folderID
  let toDelete := localIDs.filter (fun i => !(remoteIDs.contains i))
  let db1 := if toDelete.isEmpty then db else delete_note_IDs db toDelete folderID
  let toFetch := remoteIDs.filter (fun i => !(localIDs.contains i))
  fetch_and_record folderID detail db1 toFetch

/-- The `for note_folder in note_folders:` frontier loop of the main block,
one folder after the other; an uncaught exception aborts the remaining
folders. -/
def frontier_all_folders (pages : String → List (List Note)) (db : NotesDB) :
    List NoteFolder → NotesRun
  | [] => .ok db
  | f :: t =>
    match frontier_sync_folder db f (pages f.id) with
    | .ok db' => frontier_all_folders pages db' t
    | .error e => .error e

/-- The audit loop of the main block: every folder whose remote count
disagrees with the local count (or every folder, in fsck mode) is audited;
an uncaught exception aborts the remaining folders. -/
def audit_all_folders (fsck : Bool) (remoteIDs : String → List Nat)
    (detail : Nat → NoteDetail) (db : NotesDB) : List NoteFolder → NotesRun
  | [] => .ok db
  | f :: t =>
    if fsck || f.site_note_count != get_note_folder_notes_count db f.id then
      match audit_note_folder db f.id (remoteIDs f.id) detail with
      | .ok db' => audit_all_folders fsck remoteIDs detail db' t
      | .error e => .error e
    else audit_all_folders fsck remoteIDs detail db t

/-- The whole main block of deviantart-notes-downloader.py after login:
the per-folder frontier loop runs only when not in fsck mode (the
`if not options.fsck:` guard); stored folders absent from the remote folder
list are deleted; finally the audit loop runs.  No exception handling wraps
these loops in the source, so a raised exception ends the pass with
whatever was committed. -/
def notes_main_pass (fsck : Bool) (db : NotesDB)
    (note_folders : List NoteFolder) (pages : String → List (List Note))
    (remoteIDs : String → List Nat) (detail : Nat → NoteDetail) : NotesRun :=
  match (if !fsck then frontier_all_folders pages db note_folders else .ok db) with
  | .error e => .error e
  | .ok db1 =>
    let daFolderIDs := note_folders.map (fun f => f.id)
    let deleted := (db1.folders.map (fun r => r.id)).filter
      (fun i => !(daFolderIDs.contains i))
    let db2 := deleted.foldl delete_note_folder_ID db1
    audit_all_folders fsck remoteIDs detail db2 note_folders

/-- Python's `str.isdigit` on the ASCII fragment: true iff the string is
non-empty and every character is a digit (so `"".isdigit()` is false). -/
def pyIsDigit (s : String) : Bool :=
  !(s.data.isEmpty) && s.data.all Char.isDigit

/-- `format_note_folder_id` (devart.py): wrap the folder id in double quotes
unless it consists solely of digits. -/
def format_note_folder_id (folder_ID : String) : String :=
  if !(pyIsDigit folder_ID) then "\"" ++ folder_ID ++ "\"" else folder_ID

/-- A Python value as far as the `__hash__` protocol is concerned: the
methods of the record classes in devart.py return either an int or a str. -/
inductive PyVal where
  | int (n : Int)
  | str (s : String)
deriving DecidableEq, Repr

/-- `NoteFolder.__hash__` (devart.py) returns `self.ID` - which for every
NoteFolder built by `get_note_folders` is a string (the HTML
`data-folderid` attribute), numeric-looking or symbolic alike. -/
def NoteFolder.hashMethod (f : NoteFolder) : PyVal := .str f.id

/-- The message CPython raises when an object's `__hash__` returns a
non-integer. -/
def hashTypeErrorMsg : String :=
  "TypeError: __hash__ method should return an integer"

/-- The builtin `hash(obj)` applied to an object whose `__hash__` returned
the given value: CPython type-checks the result and raises TypeError unless
it is an integer (small non-negative ints hash to themselves). -/
def pyHashCall : PyVal → Except String Int
  | .int n => .ok n
  | .str _ => .error hashTypeErrorMsg

/-- `NoteFolder.__eq__` (devart.py): `hash(self) == hash(other)`, so the
comparison first calls the builtin `hash` on both sides and propagates any
TypeError it raises. -/
def noteFolder_eq (a b : NoteFolder) : Except String Bool := do
  let x ← pyHashCall a.hashMethod
  let y ← pyHashCall b.hashMethod
  return x == y

/-- A row of `tbl_deviation` from deviantart-deviations-downloader.py. -/
structure DeviationRow where
  id : Nat
  title : String
  url : String
  username : String
  timestamp : Nat
  description : String
deriving DecidableEq, Repr

/-- The devart.DeviationFolder object and, identically shaped, a row of the
deviations database's `tbl_folder`: the constructor coerces the id to int
(raising on non-numeric input), so deviation folder ids are numeric. -/
structure DeviationFolderRec where
  id : Nat
  title : String
  description : String
  url : String
deriving DecidableEq, Repr

/-- The deviations database: `tbl_deviation`, `tbl_folder` and
`tbl_deviation_folders` (mapping rows `(fk_deviation_id, fk_folder_id)`;
this schema does declare a unique index on the pair). -/
structure DevDB where
  deviations : List DeviationRow
  folders : List DeviationFolderRec
  deviationFolders : List (Nat × Nat)
deriving DecidableEq, Repr

/-- `get_deviation_folders` (deviantart-deviations-downloader.py): the
double join `tbl_deviation x tbl_deviation_folders x tbl_folder` restricted
to one deviation id - folder rows are returned only when the deviation row
exists, a mapping row exists, and the folder row exists. -/
def get_deviation_folders (db : DevDB) (devID : Nat) :
    List DeviationFolderRec :=
  if db.deviations.any (fun d => d.id == devID) then
    (db.deviationFolders.filter (fun m => m.1 == devID)).filterMap
      (fun m => db.folders.find? (fun f => f.id == m.2))
  else []

/-- `record_deviation_folders` (deviantart-deviations-downloader.py): for
each passed folder, insert its row unless a row with that id already
exists. -/
def record_deviation_folders (db : DevDB)
    (fs : List DeviationFolderRec) : DevDB :=
  fs.foldl
    (fun d f =>
      if d.folders.any (fun r => r.id == f.id) then d
      else { d with folders := d.folders ++ [f] }) db

/-- `record_new_deviation_folder_mappings`
(deviantart-deviations-downloader.py): plain inserts of one mapping row per
passed folder. -/
def record_new_deviation_folder_mappings (db : DevDB) (devID : Nat)
    (fs : List DeviationFolderRec) : DevDB :=
  { db with deviationFolders :=
      db.deviationFolders ++ fs.map (fun f => (devID, f.id)) }

/-- `record_removed_deviation_folder_mappings`
(deviantart-deviations-downloader.py): per passed folder, delete the
deviation's mapping row for that folder, then run
`select count(1) ... fetchone()` and delete the folder row when the result
`is None`.  An aggregate `count(1)` query always returns exactly one row, so
sqlite3's `fetchone()` yields `some count` here - never `None` - and the
folder-deletion branch is unreachable; the model renders that faithfully. -/
def record_removed_deviation_folder_mappings (db : DevDB) (devID : Nat)
    (fs : List DeviationFolderRec) : DevDB :=
  fs.foldl
    (fun d f =>
      let nf := d.deviationFolders.filter
        (fun m => !(m.1 == devID && m.2 == f.id))
      let deviations_mapped_count : Option Nat :=
        some ((nf.filter (fun m => m.2 == f.id)).length)
      let d1 := { d with deviationFolders := nf }
      if deviations_mapped_count.isNone then
        { d1 with folders := d1.folders.filter (fun r => !(r.id == f.id)) }
      else d1) db

/-- Python `set(...)` built from a list of DeviationFolder objects: their
`__hash__`/`__eq__` compare the integer `ID` field only, so building the set
keeps the first object seen for each distinct id. -/
def dedup_by_folder_id (l : List DeviationFolderRec) :
    List DeviationFolderRec :=
  l.foldl (fun acc f => if acc.any (fun g => g.id == f.id) then acc
                        else acc ++ [f]) []

/-- Python `set(a) - set(b)` on DeviationFolder objects: membership is
decided by the integer id alone. -/
def folder_set_diff (a b : List DeviationFolderRec) :
    List DeviationFolderRec :=
  (dedup_by_folder_id a).filter (fun f => !(b.any (fun g => g.id == f.id)))

/-- The known-deviation branch of the deviations downloader main loop: read
the deviation's stored folders, compute `new = remote - stored` and
`deleted = stored - remote` as Python set differences, ensure folder rows
exist for the new folders not already in the run's recorded-folder cache,
insert the new mappings and delete the removed ones. -/
def reconcile_known_deviation (db : DevDB) (devID : Nat)
    (remoteFolders : List DeviationFolderRec)
    (recorded_cache : List DeviationFolderRec) : DevDB :=
  let current := get_deviation_folders db devID
  let newFolders := folder_set_diff remoteFolders current
  let unknown := folder_set_diff newFolders recorded_cache
  let db1 := record_deviation_folders db unknown
  let db2 := record_new_deviation_folder_mappings db1 devID newFolders
  let deleted := folder_set_diff current remoteFolders
  record_removed_deviation_folder_mappings db2 devID deleted

/-- A note row with the given id exists in `tbl_note`. -/
def note_row_exists (db : NotesDB) (i : Nat) : Prop :=
  ∃ n ∈ db.notes, n.id = i

/-- A mapping row `(note, folder)` exists in `tbl_note_folders`. -/
def note_mapped (db : NotesDB) (i : Nat) (fid : String) : Prop :=
  (i, fid) ∈ db.noteFolders

/-- A deviation row with the given id exists in `tbl_deviation`. -/
def dev_row_exists (db : DevDB) (i : Nat) : Prop :=
  ∃ d ∈ db.deviations, d.id = i

/-- A folder row with the given id exists in the deviations `tbl_folder`. -/
def folder_row_exists (db : DevDB) (fid : Nat) : Prop :=
  ∃ f ∈ db.folders, f.id = fid

/-- A mapping row `(deviation, folder)` exists in `tbl_deviation_folders`. -/
def dev_mapped (db : DevDB) (i fid : Nat) : Prop :=
  (i, fid) ∈ db.deviationFolders

instance (db : NotesDB) (i : Nat) : Decidable (note_row_exists db i) :=
  inferInstanceAs (Decidable (∃ n ∈ db.notes, n.id = i))

instance (db : NotesDB) (i : Nat) (fid : String) :
    Decidable (note_mapped db i fid) :=
  inferInstanceAs (Decidable ((i, fid) ∈ db.noteFolders))

instance (db : DevDB) (i : Nat) : Decidable (dev_row_exists db i) :=
  inferInstanceAs (Decidable (∃ d ∈ db.deviations, d.id = i))

instance (db : DevDB) (fid : Nat) : Decidable (folder_row_exists db fid) :=
  inferInstanceAs (Decidable (∃ f ∈ db.folders, f.id = fid))

instance (db : DevDB) (i fid : Nat) : Decidable (dev_mapped db i fid) :=
  inferInstanceAs (Decidable ((i, fid) ∈ db.deviationFolders))

/-! ## Helper lemmas -/

/-- Characterization of the note-id join: an id is listed for a folder iff a
mapping row and a note row both exist. -/
lemma mem_get_note_ids_iff (db : NotesDB) (fid : String) (i : Nat) :
    i ∈ get_note_ids_in_folder db fid ↔
      note_mapped db i fid ∧ note_row_exists db i := by
  unfold get_note_ids_in_folder note_mapped note_row_exists
  constructor
  · intro h
    rcases List.mem_filterMap.mp h with ⟨m, hm, hf⟩
    rcases List.mem_filter.mp hm with ⟨hmem, hp⟩
    by_cases hany : db.notes.any (fun n => n.id == m.1) = true
    · rw [if_pos hany] at hf
      obtain ⟨m1, m2⟩ := m
      obtain rfl : m1 = i := by simpa using hf
      obtain rfl : m2 = fid := by simpa using hp
      refine ⟨hmem, ?_⟩
      rcases List.any_eq_true.mp hany with ⟨n, hn, hni⟩
      exact ⟨n, hn, by simpa using hni⟩
    · rw [if_neg hany] at hf
      cases hf
  · rintro ⟨hmap, n, hn, hid⟩
    refine List.mem_filterMap.mpr ⟨(i, fid), List.mem_filter.mpr ⟨hmap, by simp⟩, ?_⟩
    rw [if_pos (List.any_eq_true.mpr ⟨n, hn, by simpa using hid⟩)]

/-- `record_note` always raises: "who" is not among the attributes
devart.Note defines, so the parameter-dict lookup fails before any SQL and
the database is returned untouched inside the error. -/
lemma record_note_eq (db : NotesDB) (nt : Note) :
    record_note db nt = Except.error (noteWhoAttributeError, db) := rfl

lemma delete_note_IDs_mapped_iff (db : NotesDB) (ids : List Nat)
    (fid0 : String) (i : Nat) (fid : String) :
    note_mapped (delete_note_IDs db ids fid0) i fid ↔
      note_mapped db i fid ∧ ¬(i ∈ ids ∧ fid = fid0) := by
  unfold delete_note_IDs note_mapped
  simp
  tauto

lemma delete_note_IDs_row_imp (db : NotesDB) (ids : List Nat) (fid0 : String)
    (i : Nat) (h : note_row_exists (delete_note_IDs db ids fid0) i) :
    note_row_exists db i := by
  unfold delete_note_IDs note_row_exists at h
  unfold note_row_exists
  rcases h with ⟨n, hn, hni⟩
  exact ⟨n, (List.mem_filter.mp hn).1, hni⟩

lemma delete_note_IDs_row_of_not_mem (db : NotesDB) (ids : List Nat)
    (fid0 : String) (i : Nat) (h : i ∉ ids) :
    note_row_exists (delete_note_IDs db ids fid0) i ↔ note_row_exists db i := by
  unfold delete_note_IDs note_row_exists
  constructor
  · rintro ⟨n, hn, hni⟩
    exact ⟨n, (List.mem_filter.mp hn).1, hni⟩
  · rintro ⟨n, hn, hni⟩
    refine ⟨n, List.mem_filter.mpr ⟨hn, ?_⟩, hni⟩
    simp [hni, h]

/-- One page of the inner recording loop has three outcomes, and all of
them leave the database exactly as it was: the page is empty (no new note
seen), its first note is at or below the frontier (detected flag set), or
its first note is strictly new and `record_note` raises. -/
lemma record_new_notes_in_page_cases (last : Nat) (db : NotesDB)
    (page : List Note) :
    record_new_notes_in_page last db page = Except.ok (db, false) ∨
    record_new_notes_in_page last db page = Except.ok (db, true) ∨
    record_new_notes_in_page last db page =
      Except.error (noteWhoAttributeError, db) := by
  cases page with
  | nil => exact Or.inl rfl
  | cons n t =>
    by_cases h : n.ID ≤ last
    · right
      left
      simp [record_new_notes_in_page, h]
    · right
      right
      simp [record_new_notes_in_page, h, record_note_eq]

/-- The page loop either completes or aborts with the AttributeError, and
either way the database is unchanged: the source can never record a note. -/
lemma frontier_page_loop_cases (last : Nat) (pages : List (List Note)) :
    ∀ db : NotesDB,
      frontier_page_loop last db pages = Except.ok db ∨
      frontier_page_loop last db pages =
        Except.error (noteWhoAttributeError, db) := by
  induction pages with
  | nil => intro db; exact Or.inl rfl
  | cons page rest ih =>
    intro db
    rcases record_new_notes_in_page_cases last db page with h | h | h
    · by_cases hs : page.length < 25
      · left
        simp [frontier_page_loop, h, hs]
      · have := ih db
        simpa [frontier_page_loop, h, hs] using this
    · left
      simp [frontier_page_loop, h]
    · right
      simp [frontier_page_loop, h]

lemma record_note_folder_eq_none (db : NotesDB) (nf : NoteFolder)
    (hf : db.folders.find? (fun r => r.id == nf.id) = none) :
    record_note_folder db nf =
      { db with folders := db.folders ++ [⟨nf.id, nf.title⟩] } := by
  unfold record_note_folder
  rw [hf]

lemma record_note_folder_eq_some (db : NotesDB) (nf : NoteFolder)
    (r : FolderRow)
    (hf : db.folders.find? (fun q => q.id == nf.id) = some r) :
    record_note_folder db nf =
      if r.title ≠ nf.title then
        { db with folders :=
            db.folders.map (fun q => if q.id == nf.id then ⟨q.id, nf.title⟩ else q) }
      else db := by
  unfold record_note_folder
  rw [hf]

lemma record_note_folder_notes_eq (db : NotesDB) (nf : NoteFolder) :
    (record_note_folder db nf).notes = db.notes ∧
    (record_note_folder db nf).noteFolders = db.noteFolders := by
  cases hf : db.folders.find? (fun r => r.id == nf.id) with
  | none =>
    rw [record_note_folder_eq_none db nf hf]
    exact ⟨rfl, rfl⟩
  | some r =>
    rw [record_note_folder_eq_some db nf r hf]
    by_cases ht : r.title = nf.title
    · rw [if_neg (by simp [ht])]
      exact ⟨rfl, rfl⟩
    · rw [if_pos ht]
      exact ⟨rfl, rfl⟩

lemma get_note_ids_congr (db1 db2 : NotesDB) (hn : db1.notes = db2.notes)
    (hm : db1.noteFolders = db2.noteFolders) (fid : String) :
    get_note_ids_in_folder db1 fid = get_note_ids_in_folder db2 fid := by
  unfold get_note_ids_in_folder
  rw [hn, hm]

/-! ## Claim theorems -/

/-- C10: `format_note_folder_id` returns every digit-only string unchanged
and wraps every other string (the empty string included) in double quotes;
hence it is idempotent on digit-only strings, while applying it twice to
any other string yields the doubly quote-wrapped string. -/
theorem format_note_folder_id_C10 (s : String) :
    format_note_folder_id s = (if pyIsDigit s then s else "\"" ++ s ++ "\"") ∧
    format_note_folder_id (format_note_folder_id s) =
      (if pyIsDigit s then s else "\"\"" ++ s ++ "\"\"") := by
  have hq : ∀ r : String, pyIsDigit ("\"" ++ r ++ "\"") = false := by
    intro r
    have h : Char.isDigit '"' = false := rfl
    simp [pyIsDigit, String.data_append, h]
  by_cases h : pyIsDigit s
  · exact ⟨by simp [format_note_folder_id, h], by simp [format_note_folder_id, h]⟩
  · have h' : pyIsDigit s = false := Bool.of_not_eq_true h
    have h1 : format_note_folder_id s = "\"" ++ s ++ "\"" := by
      simp [format_note_folder_id, h']
    refine ⟨by simp [h1, h'], ?_⟩
    rw [h1]
    have h2 : format_note_folder_id ("\"" ++ s ++ "\"")
        = "\"" ++ ("\"" ++ s ++ "\"") ++ "\"" := by
      simp [format_note_folder_id, hq s]
    rw [h2]
    simp only [h', Bool.false_eq_true, if_false]
    apply String.ext
    simp [String.data_append]

/-- C4 (code bug): deleting deviation 1's only folder mapping leaves folder
10 with zero mapping rows, yet the folder row survives.  An aggregate
`select count(1)` query always returns a row, so the source's
`fetchone() is None` test never fires and the folder garbage-collection
branch is dead code, contrary to the claim and to the source's own comment
"Cleaning up folders with no deviations". -/
theorem empty_folder_not_deleted_C4 :
    ((record_removed_deviation_folder_mappings
        ⟨[⟨1, "d", "u", "me", 0, ""⟩], [⟨10, "A", "", ""⟩], [(1, 10)]⟩ 1
        [⟨10, "A", "", ""⟩]).deviationFolders = []) ∧
    ((record_removed_deviation_folder_mappings
        ⟨[⟨1, "d", "u", "me", 0, ""⟩], [⟨10, "A", "", ""⟩], [(1, 10)]⟩ 1
        [⟨10, "A", "", ""⟩]).folders = [⟨10, "A", "", ""⟩]) := ⟨rfl, rfl⟩

/-- C9 (code bug): with a stored folder ("1", "old"), the remote reporting
title "new" and matching note counts, a normal pass renames the folder in
place but an fsck pass leaves the stale title, because the rename logic
(`record_note_folder`) sits inside the `if not options.fsck:` block even
though the source comment says "Fsck mode should still delete and rename
folders".  Neither run ever reaches `record_note` (no note is new and the
audits have nothing to fetch), so both passes complete. -/
theorem fsck_pass_skips_rename_C9 :
    (notes_main_pass true ⟨[], [⟨"1", "old"⟩], []⟩ [⟨"1", "new", 0⟩]
        (fun _ => []) (fun _ => []) (fun _ => ⟨"", "", 0, ""⟩)
      = Except.ok ⟨[], [⟨"1", "old"⟩], []⟩) ∧
    (notes_main_pass false ⟨[], [⟨"1", "old"⟩], []⟩ [⟨"1", "new", 0⟩]
        (fun _ => []) (fun _ => []) (fun _ => ⟨"", "", 0, ""⟩)
      = Except.ok ⟨[], [⟨"1", "new"⟩], []⟩) := ⟨rfl, rfl⟩

/-- C8 counterexample: an equality test on the "unread" pseudo-folder does
not succeed - `NoteFolder.__eq__` calls the builtin `hash`, which rejects
the string ID returned by `__hash__` with a TypeError - refuting the claim
that every listed operation on the "unread" folder succeeds (a numeric-id
folder fails the same way, so the failure is at least uniform). -/
theorem noteFolder_eq_raises_C8_cex :
    (noteFolder_eq ⟨"unread", "Unread", 0⟩ ⟨"unread", "Unread", 0⟩
      = Except.error hashTypeErrorMsg) ∧
    (noteFolder_eq ⟨"1", "Inbox", 0⟩ ⟨"1", "Inbox", 0⟩
      = Except.error hashTypeErrorMsg) := ⟨rfl, rfl⟩

/-- C8 (amended): the modelled operations treat the symbolic token "unread"
and numeric folder ids uniformly.  Folder-row creation and deletion,
membership lookup and remote-id formatting succeed for an arbitrary
folder-id string - "unread" included; note recording fails identically for
every folder-id string (`record_note` raises AttributeError on `note.who`
before any SQL); and NoteFolder equality/set-membership tests raise the
same `hash` TypeError for every folder, symbolic or numeric alike, because
`__hash__` returns the string ID. -/
theorem unread_folder_uniform_C8 :
    (∀ a b : NoteFolder, noteFolder_eq a b = Except.error hashTypeErrorMsg) ∧
    (∀ (db : NotesDB) (i t : String) (c : Nat),
        i ∈ (record_note_folder db ⟨i, t, c⟩).folders.map FolderRow.id) ∧
    (∀ (db : NotesDB) (i : String),
        i ∉ (delete_note_folder_ID db i).folders.map FolderRow.id) ∧
    (∀ (db : NotesDB) (j : Nat) (i : String),
        j ∈ get_note_ids_in_folder db i ↔
          note_mapped db j i ∧ note_row_exists db j) ∧
    (∀ (db : NotesDB) (j : Nat) (i : String) (d : NoteDetail),
        record_note db (note_from_detail j i d)
          = Except.error (noteWhoAttributeError, db)) ∧
    (∀ s : String,
        format_note_folder_id s =
          (if pyIsDigit s then s else "\"" ++ s ++ "\"")) := by
  refine ⟨fun a b => rfl, ?_, ?_,
    fun db j i => mem_get_note_ids_iff db i j, fun db j i d => rfl, ?_⟩
  · intro db i t c
    cases hf : db.folders.find? (fun r => r.id == i) with
    | none =>
      rw [record_note_folder_eq_none db ⟨i, t, c⟩ hf]
      simp
    | some r =>
      rw [record_note_folder_eq_some db ⟨i, t, c⟩ r hf]
      have hrmem : r ∈ db.folders := List.mem_of_find?_eq_some hf
      have hrid : r.id = i := by simpa using List.find?_some hf
      by_cases ht : r.title = t
      · rw [if_neg (by simp [ht])]
        exact List.mem_map.mpr ⟨r, hrmem, hrid⟩
      · rw [if_pos ht]
        simp only [List.map_map, List.mem_map, Function.comp]
        exact ⟨r, hrmem, by simp [hrid]⟩
  · intro db i
    unfold delete_note_folder_ID
    simp [List.mem_map, List.mem_filter]
  · intro s
    by_cases h : pyIsDigit s
    · simp [format_note_folder_id, h]
    · simp [format_note_folder_id, Bool.of_not_eq_true h]

/-- C5 counterexample: with note 7 already recorded in folder "1",
recording it again for the same folder is an error, not a no-op:
`record_note` raises AttributeError ('Note' object has no attribute 'who')
while building the insert's parameter dict, before any SQL runs - refuting
the claim that inserting an already-present membership "is a no-op rather
than an error" backed by a unique constraint. -/
theorem record_note_not_noop_C5_cex :
    record_note ⟨[⟨7, "t", "s", 0, "x"⟩], [⟨"1", "f"⟩], [(7, "1")]⟩
        ⟨7, "t", "s", 0, "x", "1"⟩
      = Except.error (noteWhoAttributeError,
          ⟨[⟨7, "t", "s", 0, "x"⟩], [⟨"1", "f"⟩], [(7, "1")]⟩) := rfl

/-- C5 (amended): the notes membership table carries no unique constraint -
its `(fk_note_id, fk_folder_id)` index is declared without `unique` (only
the deviations schema has a unique mapping index) - and recording an
already-known note again is not a constraint-backed no-op: every
`record_note` call, re-recording included, raises AttributeError
(`note.who`) before executing any SQL, so both the note table and the
membership table are left unchanged by the raised call. -/
theorem record_note_raises_C5 (db : NotesDB) (nt : Note) :
    record_note db nt = Except.error (noteWhoAttributeError, db) ∧
    (result_state (record_note db nt)).notes = db.notes ∧
    (result_state (record_note db nt)).noteFolders = db.noteFolders :=
  ⟨rfl, rfl, rfl⟩

/-- C6 counterexample: with frontier 0 and the remote serving the page
[note 105, note 104], the pass persists nothing at all - it aborts with
AttributeError at note 105 with the database unchanged - so no
oldest-first (indeed no) list of new items is produced or persisted,
refuting the claim at this input. -/
theorem frontier_persists_nothing_C6_cex :
    frontier_page_loop 0 ⟨[], [⟨"1", "f"⟩], []⟩
        [[⟨105, "t", "s", 0, "x", "1"⟩, ⟨104, "t", "s", 0, "x", "1"⟩]]
      = Except.error (noteWhoAttributeError, ⟨[], [⟨"1", "f"⟩], []⟩) := rfl

/-- C6 (amended): one Frontier Sync pass never persists any new item: the
page loop either completes having recorded nothing (no strictly-new note
was encountered) or aborts with the `note.who` AttributeError at the first
strictly-new note, in both cases leaving the database exactly as it was;
consequently a whole folder pass leaves the note and membership tables
untouched (only `record_note_folder`'s folder bookkeeping can change the
database), and no oldest-first output list exists to speak of. -/
theorem frontier_persists_nothing_C6 (last : Nat) (pages : List (List Note))
    (db : NotesDB) (nf : NoteFolder) :
    (frontier_page_loop last db pages = Except.ok db ∨
      frontier_page_loop last db pages =
        Except.error (noteWhoAttributeError, db)) ∧
    (result_state (frontier_sync_folder db nf pages)).notes = db.notes ∧
    (result_state (frontier_sync_folder db nf pages)).noteFolders =
      db.noteFolders := by
  have heq := record_note_folder_notes_eq db nf
  have hfs : frontier_sync_folder db nf pages =
      frontier_page_loop (get_last_note_id (record_note_folder db nf) nf.id)
        (record_note_folder db nf) pages := rfl
  have hres : result_state (frontier_sync_folder db nf pages) =
      record_note_folder db nf := by
    rw [hfs]
    rcases frontier_page_loop_cases
        (get_last_note_id (record_note_folder db nf) nf.id) pages
        (record_note_folder db nf) with h | h <;> rw [h] <;> rfl
  exact ⟨frontier_page_loop_cases last pages db,
    by rw [hres]; exact heq.1, by rw [hres]; exact heq.2⟩

/-- C2 (code bug): Scenario A - frontier 100, the remote serving pages
[105,104,103,101] then [100,99].  Instead of recording {101,103,104,105}
and stopping at the first known note, the loop raises AttributeError
inside `record_note` at the very first strictly-new note (105), recording
nothing and leaving the database unchanged (first conjunct).  When the
first fetched note is already known (pages [100,99], second conjunct), the
stop-at-frontier logic does complete the loop without re-recording note
100 - recording, as always, nothing. -/
theorem frontier_scenario_a_crashes_C2 :
    (frontier_page_loop 100
        ⟨[⟨100, "t", "s", 0, "x"⟩], [⟨"1", "f"⟩], [(100, "1")]⟩
        [[⟨105, "t", "s", 0, "x", "1"⟩, ⟨104, "t", "s", 0, "x", "1"⟩,
          ⟨103, "t", "s", 0, "x", "1"⟩, ⟨101, "t", "s", 0, "x", "1"⟩],
         [⟨100, "t", "s", 0, "x", "1"⟩, ⟨99, "t", "s", 0, "x", "1"⟩]]
      = Except.error (noteWhoAttributeError,
          ⟨[⟨100, "t", "s", 0, "x"⟩], [⟨"1", "f"⟩], [(100, "1")]⟩)) ∧
    (frontier_page_loop 100
        ⟨[⟨100, "t", "s", 0, "x"⟩], [⟨"1", "f"⟩], [(100, "1")]⟩
        [[⟨100, "t", "s", 0, "x", "1"⟩, ⟨99, "t", "s", 0, "x", "1"⟩]]
      = Except.ok ⟨[⟨100, "t", "s", 0, "x"⟩], [⟨"1", "f"⟩], [(100, "1")]⟩) :=
  ⟨rfl, rfl⟩

/-- C7 (amended): across the frontier-fetch phase the highest locally
recorded note id of a folder never decreases - the phase cannot change the
note or membership tables at all, whether it completes or aborts inside
`record_note`; the claimed monotonicity for a complete pass fails once an
audit deletes notes, which the counterexample shows on a forced audit pass
that finishes without error. -/
theorem frontier_monotone_C7 (db : NotesDB) (nf : NoteFolder)
    (pages : List (List Note)) :
    get_last_note_id db nf.id ≤
      get_last_note_id (result_state (frontier_sync_folder db nf pages))
        nf.id := by
  have heq := record_note_folder_notes_eq db nf
  have hids : get_note_ids_in_folder (record_note_folder db nf) nf.id =
      get_note_ids_in_folder db nf.id :=
    get_note_ids_congr _ _ heq.1 heq.2 nf.id
  have hfs : frontier_sync_folder db nf pages =
      frontier_page_loop (get_last_note_id (record_note_folder db nf) nf.id)
        (record_note_folder db nf) pages := rfl
  have hres : result_state (frontier_sync_folder db nf pages) =
      record_note_folder db nf := by
    rw [hfs]
    rcases frontier_page_loop_cases
        (get_last_note_id (record_note_folder db nf) nf.id) pages
        (record_note_folder db nf) with h | h <;> rw [h] <;> rfl
  have hlast : get_last_note_id (record_note_folder db nf) nf.id =
      get_last_note_id db nf.id := by
    unfold get_last_note_id
    rw [hids]
  rw [hres, hlast]

/-- C7 counterexample: a forced audit pass on a folder storing notes
{100, 50} while the remote holds only {50} completes WITHOUT error -
nothing needs fetching, so `record_note` is never reached - after deleting
note 100; the folder's highest locally recorded id drops from 100 to 50
across a completed pass, refuting the claimed monotonicity. -/
theorem audit_decreases_frontier_C7_cex :
    (notes_main_pass true
        ⟨[⟨100, "t", "s", 0, "x"⟩, ⟨50, "t", "s", 0, "x"⟩], [⟨"1", "f"⟩],
         [(100, "1"), (50, "1")]⟩
        [⟨"1", "f", 1⟩] (fun _ => []) (fun _ => [50])
        (fun _ => ⟨"t", "s", 0, "x"⟩)
      = Except.ok ⟨[⟨50, "t", "s", 0, "x"⟩], [⟨"1", "f"⟩], [(50, "1")]⟩) ∧
    (get_last_note_id
        ⟨[⟨100, "t", "s", 0, "x"⟩, ⟨50, "t", "s", 0, "x"⟩], [⟨"1", "f"⟩],
         [(100, "1"), (50, "1")]⟩ "1" = 100) ∧
    (get_last_note_id
        ⟨[⟨50, "t", "s", 0, "x"⟩], [⟨"1", "f"⟩], [(50, "1")]⟩ "1" = 50) ∧
    ¬(100 ≤ 50) := ⟨rfl, rfl, rfl, by decide⟩

/-- C1 (code bug): the audit can never "fetch and record" a remote-only
note: with remote id 50 absent locally, the audit aborts with
AttributeError (`note.who`) inside `record_note` on the first fetched note
(first conjunct).  The claim's conditional guarantee survives only
vacuously: when the audit does complete without error - which forces
`remote - local` to be empty, because recording any fetched note raises -
the local id set for the folder equals the remote id set by the deletions
alone (second conjunct). -/
theorem audit_cannot_record_C1 :
    (audit_note_folder ⟨[], [⟨"1", "f"⟩], []⟩ "1" [50]
        (fun _ => ⟨"t", "s", 0, "x"⟩)
      = Except.error (noteWhoAttributeError, ⟨[], [⟨"1", "f"⟩], []⟩)) ∧
    (∀ (db : NotesDB) (fid : String) (remoteIDs : List Nat)
        (detail : Nat → NoteDetail) (db' : NotesDB),
      audit_note_folder db fid remoteIDs detail = Except.ok db' →
        ∀ i, i ∈ get_note_ids_in_folder db' fid ↔ i ∈ remoteIDs) := by
  refine ⟨rfl, ?_⟩
  intro db fid remoteIDs detail db' h i
  set L := get_note_ids_in_folder db fid with hL
  set toDelete := L.filter (fun j => !(remoteIDs.contains j)) with hTD
  set toFetch := remoteIDs.filter (fun j => !(L.contains j)) with hTF
  have hmemTD : ∀ j, j ∈ toDelete ↔ j ∈ L ∧ j ∉ remoteIDs := by
    intro j
    rw [hTD]
    simp [List.mem_filter]
  have hbody : audit_note_folder db fid remoteIDs detail =
      fetch_and_record fid detail
        (if toDelete.isEmpty then db else delete_note_IDs db toDelete fid)
        toFetch := rfl
  rw [hbody] at h
  set db1 := (if toDelete.isEmpty then db else delete_note_IDs db toDelete fid)
    with hdb1
  have hTFnil : toFetch = [] := by
    cases hTFc : toFetch with
    | nil => rfl
    | cons j t =>
      rw [hTFc] at h
      rw [show fetch_and_record fid detail db1 (j :: t) =
          Except.error (noteWhoAttributeError, db1) from by
            simp [fetch_and_record, record_note_eq]] at h
      cases h
  rw [hTFnil] at h
  simp only [fetch_and_record, Except.ok.injEq] at h
  subst h
  have hsub : ∀ j ∈ remoteIDs, j ∈ L := by
    intro j hj
    by_contra hjL
    have hjF : j ∈ toFetch := by
      rw [hTF]
      simp [List.mem_filter, hj, hjL]
    rw [hTFnil] at hjF
    cases hjF
  have hdb1_mapped : ∀ fid2 : String, note_mapped db1 i fid2 ↔
      note_mapped db i fid2 ∧ ¬(i ∈ toDelete ∧ fid2 = fid) := by
    intro fid2
    rw [hdb1]
    by_cases he : toDelete.isEmpty
    · rw [if_pos he]
      have hnil : toDelete = [] := List.isEmpty_iff.mp he
      simp [hnil]
    · rw [if_neg he]
      exact delete_note_IDs_mapped_iff db toDelete fid i fid2
  have hdb1_row_imp : note_row_exists db1 i → note_row_exists db i := by
    rw [hdb1]
    by_cases he : toDelete.isEmpty
    · rw [if_pos he]
      exact id
    · rw [if_neg he]
      exact delete_note_IDs_row_imp db toDelete fid i
  have hdb1_row_of : i ∉ toDelete →
      (note_row_exists db1 i ↔ note_row_exists db i) := by
    intro hni
    rw [hdb1]
    by_cases he : toDelete.isEmpty
    · rw [if_pos he]
    · rw [if_neg he]
      exact delete_note_IDs_row_of_not_mem db toDelete fid i hni
  rw [mem_get_note_ids_iff]
  constructor
  · rintro ⟨hmap, hrow⟩
    by_contra hiR
    rcases (hdb1_mapped fid).mp hmap with ⟨hmapdb, hnd⟩
    have hiTD : i ∉ toDelete := fun hh => hnd ⟨hh, rfl⟩
    have hrowdb : note_row_exists db i := hdb1_row_imp hrow
    have hiL : i ∈ L := (mem_get_note_ids_iff db fid i).mpr ⟨hmapdb, hrowdb⟩
    exact hiTD ((hmemTD i).mpr ⟨hiL, hiR⟩)
  · intro hiR
    have hiL : i ∈ L := hsub i hiR
    have hiTD : i ∉ toDelete := fun hh => ((hmemTD i).mp hh).2 hiR
    have hdbpair := (mem_get_note_ids_iff db fid i).mp hiL
    exact ⟨(hdb1_mapped fid).mpr ⟨hdbpair.1, fun hh => hiTD hh.1⟩,
           (hdb1_row_of hiTD).mpr hdbpair.2⟩

/-- Witness for the conditional part of the theorem of C1: a delete-only
forced audit (remote id set {50}, a subset of the local {100, 50})
completes without error, and afterwards the local id set for the folder
equals the remote id set (50 present, 100 gone). -/
theorem audit_cannot_record_C1_witness :
    (audit_note_folder
        ⟨[⟨100, "t", "s", 0, "x"⟩, ⟨50, "t", "s", 0, "x"⟩], [⟨"1", "f"⟩],
         [(100, "1"), (50, "1")]⟩ "1" [50] (fun _ => ⟨"t", "s", 0, "x"⟩)
      = Except.ok ⟨[⟨50, "t", "s", 0, "x"⟩], [⟨"1", "f"⟩], [(50, "1")]⟩) ∧
    (50 ∈ get_note_ids_in_folder
        ⟨[⟨50, "t", "s", 0, "x"⟩], [⟨"1", "f"⟩], [(50, "1")]⟩ "1" ↔
      50 ∈ [50]) ∧
    (100 ∈ get_note_ids_in_folder
        ⟨[⟨50, "t", "s", 0, "x"⟩], [⟨"1", "f"⟩], [(50, "1")]⟩ "1" ↔
      100 ∈ [50]) :=
  ⟨rfl,
   audit_cannot_record_C1.2
     ⟨[⟨100, "t", "s", 0, "x"⟩, ⟨50, "t", "s", 0, "x"⟩], [⟨"1", "f"⟩],
      [(100, "1"), (50, "1")]⟩ "1" [50] (fun _ => ⟨"t", "s", 0, "x"⟩)
     ⟨[⟨50, "t", "s", 0, "x"⟩], [⟨"1", "f"⟩], [(50, "1")]⟩ rfl 50,
   audit_cannot_record_C1.2
     ⟨[⟨100, "t", "s", 0, "x"⟩, ⟨50, "t", "s", 0, "x"⟩], [⟨"1", "f"⟩],
      [(100, "1"), (50, "1")]⟩ "1" [50] (fun _ => ⟨"t", "s", 0, "x"⟩)
     ⟨[⟨50, "t", "s", 0, "x"⟩], [⟨"1", "f"⟩], [(50, "1")]⟩ rfl 100⟩

lemma mem_get_deviation_folders_iff (db : DevDB) (devID fid : Nat) :
    fid ∈ (get_deviation_folders db devID).map DeviationFolderRec.id ↔
      dev_row_exists db devID ∧ dev_mapped db devID fid ∧
        folder_row_exists db fid := by
  unfold get_deviation_folders dev_row_exists dev_mapped folder_row_exists
  by_cases h : db.deviations.any (fun d => d.id == devID) = true
  · rw [if_pos h]
    constructor
    · intro hm
      rcases List.mem_map.mp hm with ⟨r, hr, hrid⟩
      rcases List.mem_filterMap.mp hr with ⟨m, hmf, hfind⟩
      rcases List.mem_filter.mp hmf with ⟨hmm, hm1⟩
      have hrmem : r ∈ db.folders := List.mem_of_find?_eq_some hfind
      have hrid2 : r.id = m.2 := by simpa using List.find?_some hfind
      have hm1eq : m.1 = devID := by simpa using hm1
      refine ⟨?_, ?_, ⟨r, hrmem, hrid⟩⟩
      · rcases List.any_eq_true.mp h with ⟨d, hd, hdid⟩
        exact ⟨d, hd, by simpa using hdid⟩
      · have hmeq : m = (devID, fid) := by
          obtain ⟨m1, m2⟩ := m
          simp only at hm1eq hrid2
          rw [Prod.mk.injEq]
          exact ⟨hm1eq, by rw [← hrid2, hrid]⟩
        rw [← hmeq]
        exact hmm
    · rintro ⟨⟨d, hd, hdid⟩, hmap, ⟨f, hf, hfid⟩⟩
      have hsome : (db.folders.find? (fun g => g.id == fid)).isSome :=
        List.find?_isSome.mpr ⟨f, hf, by simpa using hfid⟩
      obtain ⟨r, hr⟩ := Option.isSome_iff_exists.mp hsome
      have hrfid : r.id = fid := by simpa using List.find?_some hr
      refine List.mem_map.mpr ⟨r, List.mem_filterMap.mpr
        ⟨(devID, fid), List.mem_filter.mpr ⟨hmap, by simp⟩, hr⟩, hrfid⟩
  · rw [if_neg h]
    simp only [List.map_nil, List.not_mem_nil, false_iff]
    rintro ⟨⟨d, hd, hdid⟩, _, _⟩
    exact h (List.any_eq_true.mpr ⟨d, hd, by simpa using hdid⟩)

lemma record_deviation_folders_cons (db : DevDB) (f : DeviationFolderRec)
    (t : List DeviationFolderRec) :
    record_deviation_folders db (f :: t) =
      record_deviation_folders
        (if db.folders.any (fun r => r.id == f.id) then db
         else { db with folders := db.folders ++ [f] }) t := rfl

lemma record_deviation_folders_deviations (fs : List DeviationFolderRec) :
    ∀ db : DevDB, (record_deviation_folders db fs).deviations = db.deviations := by
  induction fs with
  | nil => intro db; rfl
  | cons f t ih =>
    intro db
    rw [record_deviation_folders_cons, ih]
    split <;> rfl

lemma record_deviation_folders_mappings (fs : List DeviationFolderRec) :
    ∀ db : DevDB,
      (record_deviation_folders db fs).deviationFolders = db.deviationFolders := by
  induction fs with
  | nil => intro db; rfl
  | cons f t ih =>
    intro db
    rw [record_deviation_folders_cons, ih]
    split <;> rfl

lemma record_deviation_folders_row_iff (fs : List DeviationFolderRec) :
    ∀ (db : DevDB) (fid : Nat),
      folder_row_exists (record_deviation_folders db fs) fid ↔
        folder_row_exists db fid ∨ fid ∈ fs.map DeviationFolderRec.id := by
  induction fs with
  | nil => intro db fid; simp [record_deviation_folders]
  | cons f t ih =>
    intro db fid
    rw [record_deviation_folders_cons, ih]
    by_cases h : db.folders.any (fun r => r.id == f.id) = true
    · rw [if_pos h]
      have hf : folder_row_exists db f.id := by
        rcases List.any_eq_true.mp h with ⟨r, hr, hrid⟩
        exact ⟨r, hr, by simpa using hrid⟩
      simp only [List.map_cons, List.mem_cons]
      constructor
      · rintro (hd | ht)
        · exact Or.inl hd
        · exact Or.inr (Or.inr ht)
      · rintro (hd | rfl | ht)
        · exact Or.inl hd
        · exact Or.inl hf
        · exact Or.inr ht
    · rw [if_neg h]
      have hstep : ∀ g : Nat, folder_row_exists { db with folders := db.folders ++ [f] } g ↔
          folder_row_exists db g ∨ g = f.id := by
        intro g
        unfold folder_row_exists
        simp only [List.mem_append, List.mem_singleton]
        constructor
        · rintro ⟨r, hr | rfl, hrid⟩
          · exact Or.inl ⟨r, hr, hrid⟩
          · exact Or.inr hrid.symm
        · rintro (⟨r, hr, hrid⟩ | rfl)
          · exact ⟨r, Or.inl hr, hrid⟩
          · exact ⟨f, Or.inr rfl, rfl⟩
      rw [hstep]
      simp only [List.map_cons, List.mem_cons]
      tauto

lemma record_new_mappings_deviations (db : DevDB) (devID : Nat)
    (fs : List DeviationFolderRec) :
    (record_new_deviation_folder_mappings db devID fs).deviations =
      db.deviations := rfl

lemma record_new_mappings_folders (db : DevDB) (devID : Nat)
    (fs : List DeviationFolderRec) :
    (record_new_deviation_folder_mappings db devID fs).folders = db.folders := rfl

lemma record_new_mappings_mapped_iff (db : DevDB) (devID : Nat)
    (fs : List DeviationFolderRec) (i fid : Nat) :
    dev_mapped (record_new_deviation_folder_mappings db devID fs) i fid ↔
      dev_mapped db i fid ∨
        (i = devID ∧ fid ∈ fs.map DeviationFolderRec.id) := by
  unfold record_new_deviation_folder_mappings dev_mapped
  simp only [List.mem_append, List.mem_map, Prod.mk.injEq]
  constructor
  · rintro (hd | ⟨f, hf, h1, h2⟩)
    · exact Or.inl hd
    · exact Or.inr ⟨h1.symm, ⟨f, hf, h2⟩⟩
  · rintro (hd | ⟨rfl, f, hf, hfid⟩)
    · exact Or.inl hd
    · exact Or.inr ⟨f, hf, rfl, hfid⟩

lemma record_removed_mappings_cons (db : DevDB) (devID : Nat)
    (f : DeviationFolderRec) (t : List DeviationFolderRec) :
    record_removed_deviation_folder_mappings db devID (f :: t) =
      record_removed_deviation_folder_mappings
        { db with deviationFolders :=
            db.deviationFolders.filter (fun m => !(m.1 == devID && m.2 == f.id)) }
        devID t := rfl

lemma record_removed_mappings_deviations (devID : Nat)
    (fs : List DeviationFolderRec) :
    ∀ db : DevDB,
      (record_removed_deviation_folder_mappings db devID fs).deviations =
        db.deviations := by
  induction fs with
  | nil => intro db; rfl
  | cons f t ih =>
    intro db
    rw [record_removed_mappings_cons, ih]

lemma record_removed_mappings_folders (devID : Nat)
    (fs : List DeviationFolderRec) :
    ∀ db : DevDB,
      (record_removed_deviation_folder_mappings db devID fs).folders =
        db.folders := by
  induction fs with
  | nil => intro db; rfl
  | cons f t ih =>
    intro db
    rw [record_removed_mappings_cons, ih]

lemma record_removed_mappings_mapped_iff (devID : Nat)
    (fs : List DeviationFolderRec) :
    ∀ (db : DevDB) (i fid : Nat),
      dev_mapped (record_removed_deviation_folder_mappings db devID fs) i fid ↔
        dev_mapped db i fid ∧
          ¬(i = devID ∧ fid ∈ fs.map DeviationFolderRec.id) := by
  induction fs with
  | nil => intro db i fid; simp [record_removed_deviation_folder_mappings]
  | cons f t ih =>
    intro db i fid
    rw [record_removed_mappings_cons, ih]
    unfold dev_mapped
    simp only [List.mem_filter, List.map_cons, List.mem_cons, Bool.not_eq_eq_eq_not,
      Bool.not_true, Bool.and_eq_false_imp, beq_iff_eq, Bool.not_eq_true]
    constructor
    · rintro ⟨⟨hmem, hcond⟩, hnot⟩
      refine ⟨hmem, ?_⟩
      rintro ⟨rfl, rfl | hft⟩
      · have := hcond rfl
        simp at this
      · exact hnot ⟨rfl, hft⟩
    · rintro ⟨hmem, hnot⟩
      refine ⟨⟨hmem, ?_⟩, ?_⟩
      · intro h1
        by_cases h2 : fid = f.id
        · exact absurd ⟨h1, Or.inl h2⟩ hnot
        · simpa using h2
      · rintro ⟨h1, hft⟩
        exact hnot ⟨h1, Or.inr hft⟩

lemma dedup_foldl_mem (l : List DeviationFolderRec) :
    ∀ (acc : List DeviationFolderRec) (g : DeviationFolderRec),
      g ∈ l.foldl (fun acc f => if acc.any (fun q => q.id == f.id) then acc
                                else acc ++ [f]) acc →
        g ∈ acc ∨ g ∈ l := by
  induction l with
  | nil => intro acc g h; exact Or.inl h
  | cons f t ih =>
    intro acc g h
    rw [List.foldl_cons] at h
    rcases ih _ g h with hacc | ht
    · by_cases hc : acc.any (fun q => q.id == f.id) = true
      · rw [if_pos hc] at hacc
        exact Or.inl hacc
      · rw [if_neg hc] at hacc
        rcases List.mem_append.mp hacc with hg1 | hg2
        · exact Or.inl hg1
        · right
          rw [List.mem_singleton] at hg2
          exact List.mem_cons.mpr (Or.inl hg2)
    · exact Or.inr (List.mem_cons.mpr (Or.inr ht))

lemma dedup_foldl_ids (l : List DeviationFolderRec) :
    ∀ (acc : List DeviationFolderRec) (fid : Nat),
      fid ∈ ((l.foldl (fun acc f => if acc.any (fun q => q.id == f.id) then acc
                                    else acc ++ [f]) acc).map
          DeviationFolderRec.id) ↔
        fid ∈ acc.map DeviationFolderRec.id ∨ fid ∈ l.map DeviationFolderRec.id := by
  induction l with
  | nil => intro acc fid; simp
  | cons f t ih =>
    intro acc fid
    rw [List.foldl_cons, ih]
    by_cases hc : acc.any (fun q => q.id == f.id) = true
    · rw [if_pos hc]
      have hfin : f.id ∈ acc.map DeviationFolderRec.id := by
        rcases List.any_eq_true.mp hc with ⟨q, hq, hqid⟩
        exact List.mem_map.mpr ⟨q, hq, by simpa using hqid⟩
      simp only [List.map_cons, List.mem_cons]
      constructor
      · rintro (ha | ht)
        · exact Or.inl ha
        · exact Or.inr (Or.inr ht)
      · rintro (ha | rfl | ht)
        · exact Or.inl ha
        · exact Or.inl hfin
        · exact Or.inr ht
    · rw [if_neg hc]
      simp only [List.map_append, List.map_cons, List.map_nil, List.mem_append,
        List.mem_cons, List.mem_singleton, List.not_mem_nil, or_false]
      tauto

lemma mem_dedup (l : List DeviationFolderRec) (g : DeviationFolderRec)
    (h : g ∈ dedup_by_folder_id l) : g ∈ l := by
  rcases dedup_foldl_mem l [] g h with h0 | h1
  · cases h0
  · exact h1

lemma mem_dedup_ids (l : List DeviationFolderRec) (fid : Nat) :
    fid ∈ (dedup_by_folder_id l).map DeviationFolderRec.id ↔
      fid ∈ l.map DeviationFolderRec.id := by
  have h := dedup_foldl_ids l [] fid
  simpa [dedup_by_folder_id] using h

lemma mem_folder_set_diff_ids (a b : List DeviationFolderRec) (fid : Nat) :
    fid ∈ (folder_set_diff a b).map DeviationFolderRec.id ↔
      fid ∈ a.map DeviationFolderRec.id ∧
        fid ∉ b.map DeviationFolderRec.id := by
  unfold folder_set_diff
  constructor
  · intro h
    rcases List.mem_map.mp h with ⟨g, hg, hgid⟩
    rcases List.mem_filter.mp hg with ⟨hgd, hp⟩
    constructor
    · exact (mem_dedup_ids a fid).mp (List.mem_map.mpr ⟨g, hgd, hgid⟩)
    · intro hb
      rcases List.mem_map.mp hb with ⟨q, hq, hqid⟩
      have hany : b.any (fun q2 => q2.id == g.id) = true :=
        List.any_eq_true.mpr ⟨q, hq, by simp [hqid, hgid]⟩
      rw [hany] at hp
      cases hp
  · rintro ⟨ha, hb⟩
    rcases List.mem_map.mp ((mem_dedup_ids a fid).mpr ha) with ⟨g, hg, hgid⟩
    refine List.mem_map.mpr ⟨g, List.mem_filter.mpr ⟨hg, ?_⟩, hgid⟩
    simp only [Bool.not_eq_eq_eq_not, Bool.not_true]
    rw [List.any_eq_false]
    intro q hq
    simp only [beq_iff_eq]
    intro hqg
    exact hb (List.mem_map.mpr ⟨q, hq, by rw [hqg, hgid]⟩)

lemma dev_row_congr (db1 db2 : DevDB) (h : db1.deviations = db2.deviations)
    (i : Nat) : dev_row_exists db1 i ↔ dev_row_exists db2 i := by
  unfold dev_row_exists
  rw [h]

lemma folder_row_congr (db1 db2 : DevDB) (h : db1.folders = db2.folders)
    (fid : Nat) : folder_row_exists db1 fid ↔ folder_row_exists db2 fid := by
  unfold folder_row_exists
  rw [h]

lemma dev_mapped_congr (db1 db2 : DevDB)
    (h : db1.deviationFolders = db2.deviationFolders) (i fid : Nat) :
    dev_mapped db1 i fid ↔ dev_mapped db2 i fid := by
  unfold dev_mapped
  rw [h]

/-- C3: for an already-known deviation, reconciling its stored folder
memberships against the remote folder set R makes the stored membership set
equal R exactly (R - L inserted, L - R deleted), and re-running the
reconciliation with unchanged inputs changes nothing at all.  The
hypotheses state that the deviation row exists (it is "already known"),
that mapping rows satisfy referential integrity (enforced by the schema's
`pragma foreign_keys = on`), and that every folder in the run's
recorded-folder cache has its row in the database (the invariant the main
loop maintains for the cache). -/
theorem membership_convergence_C3 (db : DevDB) (devID : Nat)
    (R cache : List DeviationFolderRec)
    (h1 : dev_row_exists db devID)
    (h2 : ∀ m ∈ db.deviationFolders, folder_row_exists db m.2)
    (h3 : ∀ g ∈ cache, folder_row_exists db g.id) :
    (∀ fid, fid ∈ (get_deviation_folders
          (reconcile_known_deviation db devID R cache) devID).map
            DeviationFolderRec.id
        ↔ fid ∈ R.map DeviationFolderRec.id) ∧
    reconcile_known_deviation (reconcile_known_deviation db devID R cache)
        devID R cache
      = reconcile_known_deviation db devID R cache := by
  set current := get_deviation_folders db devID with hcur
  set newFolders := folder_set_diff R current with hnew
  set unknown := folder_set_diff newFolders cache with hunk
  set deleted := folder_set_diff current R with hdel
  set db3 := record_removed_deviation_folder_mappings
    (record_new_deviation_folder_mappings
      (record_deviation_folders db unknown) devID newFolders)
    devID deleted with hdb3
  have hbody : reconcile_known_deviation db devID R cache = db3 := rfl
  rw [hbody]
  have hdev3 : db3.deviations = db.deviations := by
    rw [hdb3, record_removed_mappings_deviations, record_new_mappings_deviations,
      record_deviation_folders_deviations]
  have hrow3 : ∀ fid, folder_row_exists db3 fid ↔
      folder_row_exists db fid ∨ fid ∈ unknown.map DeviationFolderRec.id := by
    intro fid
    have e1 : db3.folders = (record_deviation_folders db unknown).folders := by
      rw [hdb3, record_removed_mappings_folders, record_new_mappings_folders]
    exact (folder_row_congr db3 (record_deviation_folders db unknown) e1 fid).trans
      (record_deviation_folders_row_iff unknown db fid)
  have hmap3 : ∀ i fid, dev_mapped db3 i fid ↔
      ((dev_mapped db i fid ∨
          (i = devID ∧ fid ∈ newFolders.map DeviationFolderRec.id)) ∧
        ¬(i = devID ∧ fid ∈ deleted.map DeviationFolderRec.id)) := by
    intro i fid
    rw [hdb3, record_removed_mappings_mapped_iff, record_new_mappings_mapped_iff,
      dev_mapped_congr (record_deviation_folders db unknown) db
        (record_deviation_folders_mappings unknown db) i fid]
  have hdevrow3 : dev_row_exists db3 devID ↔ dev_row_exists db devID :=
    dev_row_congr db3 db hdev3 devID
  have hpart1 : ∀ fid,
      fid ∈ (get_deviation_folders db3 devID).map DeviationFolderRec.id ↔
        fid ∈ R.map DeviationFolderRec.id := by
    intro fid
    rw [mem_get_deviation_folders_iff]
    constructor
    · rintro ⟨_, hmap, _⟩
      rcases (hmap3 devID fid).mp hmap with ⟨hor, hnotdel⟩
      rcases hor with hmapdb | ⟨_, hnewid⟩
      · have hrowdb : folder_row_exists db fid := h2 (devID, fid) hmapdb
        have hcurid : fid ∈ current.map DeviationFolderRec.id := by
          rw [hcur]
          exact (mem_get_deviation_folders_iff db devID fid).mpr
            ⟨h1, hmapdb, hrowdb⟩
        by_contra hR
        apply hnotdel
        refine ⟨rfl, ?_⟩
        rw [hdel]
        exact (mem_folder_set_diff_ids current R fid).mpr ⟨hcurid, hR⟩
      · rw [hnew] at hnewid
        exact ((mem_folder_set_diff_ids R current fid).mp hnewid).1
    · intro hR
      refine ⟨hdevrow3.mpr h1, ?_, ?_⟩
      · apply (hmap3 devID fid).mpr
        constructor
        · by_cases hcurid : fid ∈ current.map DeviationFolderRec.id
          · left
            rw [hcur] at hcurid
            exact ((mem_get_deviation_folders_iff db devID fid).mp hcurid).2.1
          · right
            refine ⟨rfl, ?_⟩
            rw [hnew]
            exact (mem_folder_set_diff_ids R current fid).mpr ⟨hR, hcurid⟩
        · rintro ⟨_, hdelid⟩
          rw [hdel] at hdelid
          exact ((mem_folder_set_diff_ids current R fid).mp hdelid).2 hR
      · apply (hrow3 fid).mpr
        by_cases hcurid : fid ∈ current.map DeviationFolderRec.id
        · left
          rw [hcur] at hcurid
          exact ((mem_get_deviation_folders_iff db devID fid).mp hcurid).2.2
        · have hnewid : fid ∈ newFolders.map DeviationFolderRec.id := by
            rw [hnew]
            exact (mem_folder_set_diff_ids R current fid).mpr ⟨hR, hcurid⟩
          by_cases hunkid : fid ∈ unknown.map DeviationFolderRec.id
          · exact Or.inr hunkid
          · left
            have hcacheid : fid ∈ cache.map DeviationFolderRec.id := by
              by_contra hcc
              apply hunkid
              rw [hunk]
              exact (mem_folder_set_diff_ids newFolders cache fid).mpr
                ⟨hnewid, hcc⟩
            rcases List.mem_map.mp hcacheid with ⟨g, hg, hgid⟩
            have hrow := h3 g hg
            rw [hgid] at hrow
            exact hrow
  refine ⟨hpart1, ?_⟩
  set current2 := get_deviation_folders db3 devID with hcur2
  have hnew2 : folder_set_diff R current2 = [] := by
    unfold folder_set_diff
    rw [List.filter_eq_nil_iff]
    intro g hg
    have hgR : g ∈ R := mem_dedup R g hg
    have hgid : g.id ∈ R.map DeviationFolderRec.id := List.mem_map.mpr ⟨g, hgR, rfl⟩
    have hgid2 : g.id ∈ current2.map DeviationFolderRec.id := by
      rw [hcur2]
      exact (hpart1 g.id).mpr hgid
    rcases List.mem_map.mp hgid2 with ⟨q, hq, hqid⟩
    have hany : current2.any (fun q2 => q2.id == g.id) = true :=
      List.any_eq_true.mpr ⟨q, hq, by simp [hqid]⟩
    simp [hany]
  have hdel2 : folder_set_diff current2 R = [] := by
    unfold folder_set_diff
    rw [List.filter_eq_nil_iff]
    intro g hg
    have hgC : g ∈ current2 := mem_dedup current2 g hg
    have hgid : g.id ∈ current2.map DeviationFolderRec.id :=
      List.mem_map.mpr ⟨g, hgC, rfl⟩
    have hgid2 : g.id ∈ R.map DeviationFolderRec.id := by
      rw [hcur2] at hgid
      exact (hpart1 g.id).mp hgid
    rcases List.mem_map.mp hgid2 with ⟨q, hq, hqid⟩
    have hany : R.any (fun q2 => q2.id == g.id) = true :=
      List.any_eq_true.mpr ⟨q, hq, by simp [hqid]⟩
    simp [hany]
  have hbody2 : reconcile_known_deviation db3 devID R cache =
      record_removed_deviation_folder_mappings
        (record_new_deviation_folder_mappings
          (record_deviation_folders db3
            (folder_set_diff (folder_set_diff R current2) cache))
          devID (folder_set_diff R current2))
        devID (folder_set_diff current2 R) := rfl
  rw [hbody2, hnew2, hdel2]
  have hunk2 : folder_set_diff ([] : List DeviationFolderRec) cache = [] := rfl
  rw [hunk2]
  have e1 : record_deviation_folders db3 [] = db3 := rfl
  have e2 : record_new_deviation_folder_mappings db3 devID [] = db3 := by
    unfold record_new_deviation_folder_mappings
    simp
  have e3 : record_removed_deviation_folder_mappings db3 devID [] = db3 := rfl
  rw [e1, e2, e3]

/-- Witness for the theorem of C3: deviation 1 is stored in folders
{10, 20}; the remote now reports folders {20, 30}; after reconciliation the
stored membership ids are exactly {20, 30} (30 present, 10 absent), and a
second reconciliation run is a no-op. -/
theorem membership_convergence_C3_witness :
    (dev_row_exists
        ⟨[⟨1, "d", "u", "me", 0, ""⟩],
         [⟨10, "A", "", ""⟩, ⟨20, "B", "", ""⟩], [(1, 10), (1, 20)]⟩ 1 ∧
      (∀ m ∈ (⟨[⟨1, "d", "u", "me", 0, ""⟩],
         [⟨10, "A", "", ""⟩, ⟨20, "B", "", ""⟩],
         [(1, 10), (1, 20)]⟩ : DevDB).deviationFolders,
        folder_row_exists
          ⟨[⟨1, "d", "u", "me", 0, ""⟩],
           [⟨10, "A", "", ""⟩, ⟨20, "B", "", ""⟩], [(1, 10), (1, 20)]⟩ m.2)) ∧
    ((30 ∈ (get_deviation_folders
        (reconcile_known_deviation
          ⟨[⟨1, "d", "u", "me", 0, ""⟩],
           [⟨10, "A", "", ""⟩, ⟨20, "B", "", ""⟩], [(1, 10), (1, 20)]⟩ 1
          [⟨20, "B", "", ""⟩, ⟨30, "C", "", ""⟩] []) 1).map
          DeviationFolderRec.id
      ↔ 30 ∈ ([⟨20, "B", "", ""⟩, ⟨30, "C", "", ""⟩] :
          List DeviationFolderRec).map DeviationFolderRec.id) ∧
     (10 ∈ (get_deviation_folders
        (reconcile_known_deviation
          ⟨[⟨1, "d", "u", "me", 0, ""⟩],
           [⟨10, "A", "", ""⟩, ⟨20, "B", "", ""⟩], [(1, 10), (1, 20)]⟩ 1
          [⟨20, "B", "", ""⟩, ⟨30, "C", "", ""⟩] []) 1).map
          DeviationFolderRec.id
      ↔ 10 ∈ ([⟨20, "B", "", ""⟩, ⟨30, "C", "", ""⟩] :
          List DeviationFolderRec).map DeviationFolderRec.id)) ∧
    reconcile_known_deviation
        (reconcile_known_deviation
          ⟨[⟨1, "d", "u", "me", 0, ""⟩],
           [⟨10, "A", "", ""⟩, ⟨20, "B", "", ""⟩], [(1, 10), (1, 20)]⟩ 1
          [⟨20, "B", "", ""⟩, ⟨30, "C", "", ""⟩] []) 1
        [⟨20, "B", "", ""⟩, ⟨30, "C", "", ""⟩] []
      = reconcile_known_deviation
          ⟨[⟨1, "d", "u", "me", 0, ""⟩],
           [⟨10, "A", "", ""⟩, ⟨20, "B", "", ""⟩], [(1, 10), (1, 20)]⟩ 1
          [⟨20, "B", "", ""⟩, ⟨30, "C", "", ""⟩] [] := by
  have h := membership_convergence_C3
    ⟨[⟨1, "d", "u", "me", 0, ""⟩],
     [⟨10, "A", "", ""⟩, ⟨20, "B", "", ""⟩], [(1, 10), (1, 20)]⟩ 1
    [⟨20, "B", "", ""⟩, ⟨30, "C", "", ""⟩] []
    (by decide) (by decide) (by decide)
  exact ⟨⟨by decide, by decide⟩, ⟨h.1 30, h.1 10⟩, h.2⟩

end DAScripts
